import Mathlib

/-! The comment repository of comments-svc (repository.go).

A shallow embedding of `CommentRepository` and its three operations
`GetAllForVideoId`, `GetSingle` and `Write`.

* Go strings are modelled as `String`; the conversion `[]byte(s)` only changes the
  representation, so the digest is taken over the string itself.
* A Go message pointer (`*pb.Comment`, `*pb.Response`) is an `Option`: `none` is the nil
  pointer.
* The relational table is a list of rows, the cache a finite map from keys to payloads.
* Everything outside the repository (clock text, MD5, the protobuf library, the outcome
  of a backend call) is a parameter: `Env` for the libraries, `Faults` for the backends.
* A backend call that fails leaves the backend as it was.
* A select returns a cursor; the connection may break while the rows are read, and then
  `rows.Next()` reports false with the error kept in `rows.Err()`.
* Every backend call an operation issues is recorded in a trace.
-/

namespace CommentsSvc

/-! ## Data model -/

/-- A serialized payload (`[]byte`), as stored in the cache. -/
abbrev Bytes := List Nat

/-- A clock reading (`time.Time`). -/
abbrev Time := Nat

/-- Go `error` values the repository tells apart or passes on. -/
inductive Err where
  | redisNil
  | sqlErrNoRows
  | other (msg : String)
  deriving DecidableEq, Repr

/-- The message `pb.Comment`. -/
structure Comment where
  Id : String
  VideoId : String
  User : String
  Content : String
  DatePosted : String
  Likes : Nat
  Dislikes : Nat
  deriving DecidableEq, Repr

/-- The message `pb.Response`. -/
structure Response where
  Comments : List Comment
  deriving DecidableEq, Repr

/-- The message `pb.WriteRequest`. -/
structure WriteRequest where
  VideoId : String
  User : String
  Content : String
  deriving DecidableEq, Repr

/-- One row of the table `comments`. -/
structure Row where
  id : String
  video_id : String
  user_id : String
  date_created : String
  content : String
  likes : Nat
  dislikes : Nat
  deriving DecidableEq, Repr

/-- The value `[16]byte` returned by `md5.Sum`. -/
structure Digest where
  bytes : List (Fin 256)
  size : bytes.length = 16

/-- What a library call that was handed a nil message pointer did. The pointer is passed
by value, so the caller's variable is nil afterwards whatever the call did. -/
inductive NilCall where
  | returned (err : Option Err)
  | panicked
  deriving DecidableEq, Repr

/-- Libraries the repository calls. -/
structure Env where
  /-- The text `now.String()`. -/
  timeString : Time → String
  /-- The text the database gives back for a `time.Time` it was handed. -/
  pgDate : Time → String
  /-- The digest `md5.Sum([]byte(c))`. -/
  md5Sum : String → Digest
  /-- The call `proto.Marshal` on a `*pb.Comment`. -/
  marshalComment : Comment → Except Err Bytes
  /-- The call `proto.Marshal` on a `*pb.Response`. -/
  marshalResponse : Response → Except Err Bytes
  /-- The call `proto.Unmarshal(buf, res)` with `res` a nil `*pb.Response`. -/
  unmarshalNilResponse : Bytes → NilCall
  /-- The call `proto.UnmarshalText(c, comment)` with `comment` a nil `*pb.Comment`. -/
  unmarshalTextNilComment : Bytes → NilCall

/-- Condition of the two backends during one operation. -/
structure Faults where
  /-- Error the cache answers a `Get` with (may be `redis.Nil`). -/
  cacheGet : Option Err
  /-- Error the cache answers a `Set` with. -/
  cacheSet : Option Err
  /-- Error of running a select. -/
  query : Option Err
  /-- When the connection breaks while the rows of a select are read: `some (n, e)` says
  that `rows.Next()` hands over `n` rows and then reports false, with `e` in `rows.Err()`. -/
  next : Option (Nat × Err)
  /-- Error of scanning a given row. -/
  scan : Row → Option Err
  /-- Error of running the insert. -/
  exec : Option Err

/-- The state behind the repository: table `comments` and the cache. -/
structure Store where
  rows : List Row
  cache : String → Option Bytes

/-- The cursor `*sql.Rows` of a select: the rows of the result set, and `some (n, e)` when
`rows.Next()` will hand over only `n` of them and then report false, keeping `e` in
`rows.Err()`. -/
structure Rows where
  pending : List Row
  breaks : Option (Nat × Err)
  deriving DecidableEq, Repr

/-- A backend call. -/
inductive Event where
  | cacheGet (key : String)
  | cacheSet (key : String) (val : Bytes)
  | pgQuery (video_id : String)
  | pgQueryRow (id : String)
  | pgExec (row : Row)
  deriving DecidableEq, Repr

/-- How an operation with results `(*T, error)` ended. -/
inductive Outcome (α : Type) where
  | ok (res : Option α)
  | fail (e : Err)
  | panic
  deriving DecidableEq, Repr

/-- An operation run to its end: how it ended, the state it left, the calls it made. -/
structure Run (α : Type) where
  out : Outcome α
  store : Store
  trace : List Event

/-- How the hit branch of either read ends, given what the decoder did with the nil
message pointer. -/
def nilOutcome (α : Type) : NilCall → Outcome α
  | .panicked => .panic
  | .returned (some e) => .fail e
  | .returned none => .ok none

/-! ## Backends -/

/-- The call `repo.cache.Get(key).Result()`. -/
def cacheGet (f : Faults) (s : Store) (key : String) : Except Err Bytes :=
  match f.cacheGet with
  | some e => .error e
  | none =>
    match s.cache key with
    | none => .error .redisNil
    | some v => .ok v

/-- The call `repo.cache.Set(key, v, 0)`; the repository drops its status. -/
def cacheSet (f : Faults) (s : Store) (key : String) (v : Bytes) : Store :=
  match f.cacheSet with
  | some _ => s
  | none => { s with cache := fun k => if k = key then some v else s.cache k }

/-- The call `repo.pg.Query(selectQuery, video_id)`: an error, or the cursor over the rows
of the video, in table order. -/
def pgQuery (f : Faults) (s : Store) (video_id : String) : Except Err Rows :=
  match f.query with
  | some e => .error e
  | none => .ok { pending := s.rows.filter fun r => r.video_id = video_id, breaks := f.next }

/-- The call `repo.pg.QueryRow(selectQuery, id).Scan(...)`: the error of the query, else
the error of a `rows.Next()` that failed before the first row, else `sql.ErrNoRows` when
there is no row, else the outcome of scanning the first row. -/
def pgQueryRowScan (f : Faults) (s : Store) (id : String) : Except Err Row :=
  match f.query with
  | some e => .error e
  | none =>
    match f.next with
    | some (0, e) => .error e
    | _ =>
      match s.rows.filter fun r => r.id = id with
      | [] => .error .sqlErrNoRows
      | r :: _ =>
        match f.scan r with
        | some e => .error e
        | none => .ok r

/-- The call `repo.pg.Exec(insertQuery, ...)`. -/
def pgExec (f : Faults) (s : Store) (row : Row) : Except Err Store :=
  match f.exec with
  | some e => .error e
  | none => .ok { s with rows := s.rows ++ [row] }

/-! ## encoding/hex -/

/-- The constant `hextable`. -/
def hextable : String := "0123456789abcdef"

/-- The two characters `hextable[v>>4]`, `hextable[v&0x0f]` of a byte. -/
def hexByte (v : Fin 256) : List Char :=
  [hextable.data.getD (v.val / 16) '0', hextable.data.getD (v.val % 16) '0']

/-- The function `hex.EncodeToString`. -/
def hexEncodeToString (src : List (Fin 256)) : String :=
  String.mk (src.flatMap hexByte)

/-! ## The repository -/

/-- The string `c` that `Write` hashes. -/
def hashInput (env : Env) (now : Time) (toWrite : WriteRequest) : String :=
  env.timeString now ++ toWrite.VideoId ++ toWrite.Content

/-- The identifier `commentId` that `Write` computes. -/
def commentId (env : Env) (now : Time) (toWrite : WriteRequest) : String :=
  hexEncodeToString (env.md5Sum (hashInput env now toWrite)).bytes

/-- The comment built from a scanned row in `GetAllForVideoId`. -/
def rowComment (video_id : String) (r : Row) : Comment :=
  { Id := r.id, VideoId := video_id, User := r.user_id, Content := r.content,
    DatePosted := r.date_created, Likes := r.likes, Dislikes := r.dislikes }

/-- The loop `for rows.Next()` of `GetAllForVideoId`, over the state of the cursor. The
loop ends when `rows.Next()` reports false: at the end of the rows, or when the connection
broke. The source never reads `rows.Err()`, so both ends leave the loop the same way, with
the comments gathered so far. -/
def scanRows (f : Faults) (video_id : String) :
    Option (Nat × Err) → List Row → List Comment → Except Err (List Comment)
  | _, [], comments => .ok comments
  | some (0, _), _ :: _, comments => .ok comments
  | some (n + 1, e), r :: rest, comments =>
    match f.scan r with
    | some e' => .error e'
    | none => scanRows f video_id (some (n, e)) rest (comments ++ [rowComment video_id r])
  | none, r :: rest, comments =>
    match f.scan r with
    | some e' => .error e'
    | none => scanRows f video_id none rest (comments ++ [rowComment video_id r])

/-- The method `CommentRepository.GetAllForVideoId`. -/
def GetAllForVideoId (env : Env) (f : Faults) (s : Store) (video_id : String) : Run Response :=
  let key := video_id ++ "_comments"
  match cacheGet f s key with
  | .error .redisNil =>
    match pgQuery f s video_id with
    | .error e => ⟨.fail e, s, [.cacheGet key, .pgQuery video_id]⟩
    | .ok rows =>
      match scanRows f video_id rows.breaks rows.pending [] with
      | .error e => ⟨.fail e, s, [.cacheGet key, .pgQuery video_id]⟩
      | .ok comments =>
        let res : Response := { Comments := comments }
        match env.marshalResponse res with
        | .error e => ⟨.fail e, s, [.cacheGet key, .pgQuery video_id]⟩
        | .ok v =>
          ⟨.ok (some res), cacheSet f s key v,
            [.cacheGet key, .pgQuery video_id, .cacheSet key v]⟩
  | .error e => ⟨.fail e, s, [.cacheGet key]⟩
  | .ok val =>
    let res : Option Response := none
    match env.unmarshalNilResponse val with
    | .panicked => ⟨.panic, s, [.cacheGet key]⟩
    | .returned (some e) => ⟨.fail e, s, [.cacheGet key]⟩
    | .returned none => ⟨.ok res, s, [.cacheGet key]⟩

/-- The comment built from the scanned row in `GetSingle`. -/
def singleComment (id : String) (r : Row) : Comment :=
  { Id := id, VideoId := r.video_id, User := r.user_id, DatePosted := r.date_created,
    Content := r.content, Likes := r.likes, Dislikes := r.dislikes }

/-- The method `CommentRepository.GetSingle`. -/
def GetSingle (env : Env) (f : Faults) (s : Store) (id : String) : Run Comment :=
  let comment : Option Comment := none
  let key := "comment_" ++ id
  match cacheGet f s key with
  | .error .redisNil =>
    match pgQueryRowScan f s id with
    | .error e => ⟨.fail e, s, [.cacheGet key, .pgQueryRow id]⟩
    | .ok r =>
      let comment : Option Comment := some (singleComment id r)
      match env.marshalComment (singleComment id r) with
      | .error e => ⟨.fail e, s, [.cacheGet key, .pgQueryRow id]⟩
      | .ok v =>
        ⟨.ok comment, cacheSet f s key v, [.cacheGet key, .pgQueryRow id, .cacheSet key v]⟩
  | .error e => ⟨.fail e, s, [.cacheGet key]⟩
  | .ok c =>
    match env.unmarshalTextNilComment c with
    | .panicked => ⟨.panic, s, [.cacheGet key]⟩
    | .returned (some e) => ⟨.fail e, s, [.cacheGet key]⟩
    | .returned none => ⟨.ok comment, s, [.cacheGet key]⟩

/-- The comment `Write` builds once the insert went through. -/
def newComment (env : Env) (now : Time) (toWrite : WriteRequest) : Comment :=
  { Id := commentId env now toWrite, VideoId := toWrite.VideoId, User := toWrite.User,
    Content := toWrite.Content, DatePosted := env.timeString now, Likes := 0, Dislikes := 0 }

/-- The row `Write` inserts. -/
def newRow (env : Env) (now : Time) (toWrite : WriteRequest) : Row :=
  { id := commentId env now toWrite, video_id := toWrite.VideoId, user_id := toWrite.User,
    date_created := env.pgDate now, content := toWrite.Content, likes := 0, dislikes := 0 }

/-- The method `CommentRepository.Write`. -/
def Write (env : Env) (f : Faults) (now : Time) (s : Store) (toWrite : WriteRequest) :
    Run Comment :=
  let row := newRow env now toWrite
  match pgExec f s row with
  | .error e => ⟨.fail e, s, [.pgExec row]⟩
  | .ok s1 =>
    let comment := newComment env now toWrite
    match env.marshalComment comment with
    | .error e => ⟨.fail e, s1, [.pgExec row]⟩
    | .ok v =>
      let key := "comment_" ++ commentId env now toWrite
      ⟨.ok (some comment), cacheSet f s1 key v, [.pgExec row, .cacheSet key v]⟩

/-! ## A fixture: one concrete choice of libraries and backends -/

/-- A stand-in digest: sixteen bytes, each the length of the input modulo 256. -/
def fixtureDigest (c : String) : Digest :=
  ⟨List.replicate 16 (Fin.ofNat c.length), by simp⟩

/-- A stand-in wire format of a comment: the character codes of its text fields. -/
def fixtureMarshal (c : Comment) : Bytes :=
  (c.Id ++ c.VideoId ++ c.User ++ c.Content ++ c.DatePosted).data.map Char.toNat
    ++ [c.Likes, c.Dislikes]

/-- Libraries in which serialization always succeeds and a nil message pointer, once
dereferenced by the library, panics. -/
def fixtureEnv : Env :=
  { timeString := fun t => "T" ++ String.mk (List.replicate t '1')
    pgDate := fun t => "D" ++ String.mk (List.replicate t '1')
    md5Sum := fixtureDigest
    marshalComment := fun c => .ok (fixtureMarshal c)
    marshalResponse := fun r => .ok (r.Comments.flatMap fixtureMarshal)
    unmarshalNilResponse := fun _ => .panicked
    unmarshalTextNilComment := fun _ => .panicked }

/-- Both backends healthy. -/
def noFaults : Faults :=
  { cacheGet := none, cacheSet := none, query := none, next := none, scan := fun _ => none,
    exec := none }

/-- The backends of `f`, with the cache answering every set with `status`. -/
def withCacheSet (f : Faults) (status : Option Err) : Faults :=
  { f with cacheSet := status }

/-- The cache refuses every set (out of memory), all else healthy. -/
def setRefused : Faults := withCacheSet noFaults (some (.other "OOM"))

/-- The cache is unreachable, all else healthy. -/
def cacheDown : Faults := { noFaults with cacheGet := some (.other "connection refused") }

/-- The database is unreachable for selects, all else healthy. -/
def dbDown : Faults := { noFaults with query := some (.other "unreachable") }

/-- The connection to the database breaks right after the select was sent: `rows.Next()`
reports false before the first row, all else healthy. -/
def cursorBroken : Faults := { noFaults with next := some (0, .other "connection reset") }

/-- The database refuses the insert, all else healthy. -/
def insertRefused : Faults := { noFaults with exec := some (.other "duplicate key") }

/-- An empty table and an empty cache. -/
def emptyStore : Store := { rows := [], cache := fun _ => none }

/-- The request of the scenario in the specification. -/
def helloRequest : WriteRequest := { VideoId := "v1", User := "u1", Content := "hello" }

/-- An empty table, with the empty list cached for video `v1`. -/
def staleStore : Store :=
  { rows := [], cache := fun k => if k = "v1_comments" then some [] else none }

/-- A row of video `v1`. -/
def sampleRow : Row :=
  { id := "c1", video_id := "v1", user_id := "u1", date_created := "D1", content := "hello",
    likes := 2, dislikes := 1 }

/-- A table holding `sampleRow` and a row of another video, with an empty cache. -/
def sampleStore : Store :=
  { rows := [sampleRow, { sampleRow with id := "c2", video_id := "v2" }],
    cache := fun _ => none }

/-! ## Facts about the hex identifier -/

theorem hexByte_length (v : Fin 256) : (hexByte v).length = 2 := rfl

theorem hexDigit_mem (n : Nat) (h : n < 16) : hextable.data.getD n '0' ∈ hextable.data := by
  interval_cases n <;> decide

theorem hexByte_mem (v : Fin 256) (c : Char) (h : c ∈ hexByte v) : c ∈ hextable.data := by
  simp only [hexByte, List.mem_cons, List.mem_singleton, List.not_mem_nil, or_false] at h
  rcases h with h | h
  · rw [h]; exact hexDigit_mem _ (by omega)
  · rw [h]; exact hexDigit_mem _ (Nat.mod_lt _ (by decide))

theorem hexEncode_data_length (src : List (Fin 256)) :
    (hexEncodeToString src).data.length = 2 * src.length := by
  induction src with
  | nil => rfl
  | cons v rest ih =>
    simp only [hexEncodeToString, List.flatMap_cons, List.length_append, hexByte_length,
      List.length_cons] at ih ⊢
    omega

theorem hexEncode_mem (src : List (Fin 256)) (c : Char)
    (h : c ∈ (hexEncodeToString src).data) : c ∈ hextable.data := by
  simp only [hexEncodeToString, List.mem_flatMap] at h
  obtain ⟨v, _, hv⟩ := h
  exact hexByte_mem v c hv

theorem hexDigit_inj (a b : Nat) (ha : a < 16) (hb : b < 16)
    (h : hextable.data.getD a '0' = hextable.data.getD b '0') : a = b := by
  interval_cases a <;> interval_cases b <;> first | rfl | (exact absurd h (by decide))

theorem hexByte_inj (v w : Fin 256) (h : hexByte v = hexByte w) : v = w := by
  simp only [hexByte, List.cons.injEq, and_true] at h
  have h1 := hexDigit_inj _ _ (by omega) (by omega) h.1
  have h2 := hexDigit_inj _ _ (Nat.mod_lt _ (by decide)) (Nat.mod_lt _ (by decide)) h.2
  apply Fin.ext
  omega

theorem hexEncode_inj (a b : List (Fin 256))
    (h : hexEncodeToString a = hexEncodeToString b) : a = b := by
  have hd : a.flatMap hexByte = b.flatMap hexByte := by
    simpa [hexEncodeToString] using congrArg String.data h
  clear h
  induction a generalizing b with
  | nil =>
    cases b with
    | nil => rfl
    | cons w rest => simp [hexByte] at hd
  | cons v rest ih =>
    cases b with
    | nil => simp [hexByte] at hd
    | cons w rest2 =>
      simp only [List.flatMap_cons] at hd
      have hl : (hexByte v).length = (hexByte w).length := rfl
      have := List.append_inj hd hl
      rw [hexByte_inj v w this.1, ih rest2 this.2]

theorem commentId_data_length (env : Env) (now : Time) (r : WriteRequest) :
    (commentId env now r).data.length = 32 := by
  rw [commentId, hexEncode_data_length, (env.md5Sum _).size]

/-- The key of a single comment never is the key of a video list: the former ends in a
hex digit, the latter in the letter s. -/
theorem commentKey_ne_listKey (env : Env) (now : Time) (r : WriteRequest) (v : String) :
    "comment_" ++ commentId env now r ≠ v ++ "_comments" := by
  intro h
  have hd := congrArg String.data h
  simp only [String.data_append] at hd
  have hl := congrArg List.getLast? hd
  have hne : (commentId env now r).data ≠ [] := by
    intro h0
    have := commentId_data_length env now r
    rw [h0] at this
    simp at this
  obtain ⟨c, hc⟩ : ∃ c, (commentId env now r).data.getLast? = some c := by
    cases hx : (commentId env now r).data.getLast? with
    | none => exact absurd (List.getLast?_eq_none_iff.mp hx) hne
    | some c => exact ⟨c, rfl⟩
  have hmem : c ∈ hextable.data :=
    hexEncode_mem _ c (List.mem_of_getLast?_eq_some hc)
  rw [List.getLast?_append, List.getLast?_append, hc] at hl
  have hs : ("_comments" : String).data.getLast? = some 's' := by decide
  rw [hs] at hl
  simp only [Option.or_some] at hl
  have : c = 's' := Option.some.inj hl
  rw [this] at hmem
  exact absurd hmem (by decide)

/-! ## Facts about the backends and the row loop -/

theorem cacheSet_cache_of_ne (f : Faults) (s : Store) (key k : String) (v : Bytes)
    (h : k ≠ key) : (cacheSet f s key v).cache k = s.cache k := by
  unfold cacheSet
  cases f.cacheSet with
  | none => simp [h]
  | some e => rfl

theorem cacheSet_rows (f : Faults) (s : Store) (key : String) (v : Bytes) :
    (cacheSet f s key v).rows = s.rows := by
  unfold cacheSet
  cases f.cacheSet <;> rfl

theorem cacheSet_cache_healthy (f : Faults) (s : Store) (key : String) (v : Bytes)
    (h : f.cacheSet = none) : (cacheSet f s key v).cache key = some v := by
  simp [cacheSet, h]

theorem cacheSet_failed (f : Faults) (s : Store) (key : String) (v : Bytes) (e : Err)
    (h : f.cacheSet = some e) : cacheSet f s key v = s := by
  simp [cacheSet, h]

theorem cacheGet_congr (g : Faults) (s t : Store) (key : String)
    (h : t.cache key = s.cache key) : cacheGet g t key = cacheGet g s key := by
  simp [cacheGet, h]

theorem scanRows_ok (f : Faults) (video_id : String) (rows : List Row) (acc : List Comment)
    (h : ∀ r ∈ rows, f.scan r = none) :
    scanRows f video_id none rows acc = .ok (acc ++ rows.map (rowComment video_id)) := by
  induction rows generalizing acc with
  | nil => simp [scanRows]
  | cons r rest ih =>
    have hr : f.scan r = none := h r (List.mem_cons_self _ _)
    have hrest : ∀ x ∈ rest, f.scan x = none := fun x hx => h x (List.mem_cons_of_mem _ hx)
    simp [scanRows, hr, ih _ hrest]

theorem scanRows_error (f : Faults) (video_id : String) (rows : List Row) (acc : List Comment)
    (r : Row) (e : Err) (hr : r ∈ rows) (he : f.scan r = some e) :
    ∃ r' e', r' ∈ rows ∧ f.scan r' = some e' ∧
      scanRows f video_id none rows acc = .error e' := by
  induction rows generalizing acc with
  | nil => cases hr
  | cons x rest ih =>
    cases hx : f.scan x with
    | some e' => exact ⟨x, e', List.mem_cons_self _ _, hx, by simp [scanRows, hx]⟩
    | none =>
      have hmem : r ∈ rest := by
        rcases List.mem_cons.mp hr with h | h
        · rw [h, hx] at he; cases he
        · exact h
      obtain ⟨r', e', h1, h2, h3⟩ := ih (acc ++ [rowComment video_id x]) hmem
      exact ⟨r', e', List.mem_cons_of_mem _ h1, h2, by simp [scanRows, hx, h3]⟩

theorem scanRows_nil (f : Faults) (video_id : String) (b : Option (Nat × Err))
    (acc : List Comment) : scanRows f video_id b [] acc = .ok acc := by
  rcases b with _ | ⟨n, e⟩
  · simp [scanRows]
  · cases n <;> simp [scanRows]

theorem scanRows_broken (f : Faults) (video_id : String) (n : Nat) (e : Err)
    (rows : List Row) (acc : List Comment) (h : ∀ r ∈ rows.take n, f.scan r = none) :
    scanRows f video_id (some (n, e)) rows acc
      = .ok (acc ++ (rows.take n).map (rowComment video_id)) := by
  induction rows generalizing n acc with
  | nil => simp [scanRows_nil]
  | cons r rest ih =>
    cases n with
    | zero => simp [scanRows]
    | succ m =>
      have hr : f.scan r = none := h r (by simp)
      have hrest : ∀ x ∈ rest.take m, f.scan x = none :=
        fun x hx => h x (by simp [hx])
      simp [scanRows, hr, ih m _ hrest]

theorem string_append_left_cancel (a b c : String) (h : a ++ b = a ++ c) : b = c := by
  have hd := congrArg String.data h
  simp only [String.data_append] at hd
  exact String.ext (List.append_cancel_left hd)

theorem string_append_right_cancel (a b c : String) (h : a ++ c = b ++ c) : a = b := by
  have hd := congrArg String.data h
  simp only [String.data_append] at hd
  exact String.ext (List.append_cancel_right hd)

/-! ## The paths of the three operations -/

theorem nilOutcome_ne_some (α : Type) (n : NilCall) (x : α) : nilOutcome α n ≠ .ok (some x) := by
  rcases n with (_ | e) | _ <;> simp [nilOutcome]

theorem GetSingle_hit (env : Env) (g : Faults) (s : Store) (id : String) (c : Bytes)
    (h : cacheGet g s ("comment_" ++ id) = .ok c) :
    GetSingle env g s id =
      ⟨nilOutcome Comment (env.unmarshalTextNilComment c), s, [.cacheGet ("comment_" ++ id)]⟩ := by
  simp only [GetSingle, h]
  rcases env.unmarshalTextNilComment c with (_ | e) | _ <;> rfl

theorem GetAllForVideoId_hit (env : Env) (g : Faults) (s : Store) (video_id : String)
    (val : Bytes) (h : cacheGet g s (video_id ++ "_comments") = .ok val) :
    GetAllForVideoId env g s video_id =
      ⟨nilOutcome Response (env.unmarshalNilResponse val), s,
        [.cacheGet (video_id ++ "_comments")]⟩ := by
  simp only [GetAllForVideoId, h]
  rcases env.unmarshalNilResponse val with (_ | e) | _ <;> rfl

theorem GetSingle_cacheError (env : Env) (g : Faults) (s : Store) (id : String) (e : Err)
    (h : cacheGet g s ("comment_" ++ id) = .error e) (hne : e ≠ .redisNil) :
    GetSingle env g s id = ⟨.fail e, s, [.cacheGet ("comment_" ++ id)]⟩ := by
  cases e with
  | redisNil => exact absurd rfl hne
  | sqlErrNoRows => simp only [GetSingle, h]
  | other msg => simp only [GetSingle, h]

theorem GetAllForVideoId_cacheError (env : Env) (g : Faults) (s : Store) (video_id : String)
    (e : Err) (h : cacheGet g s (video_id ++ "_comments") = .error e) (hne : e ≠ .redisNil) :
    GetAllForVideoId env g s video_id =
      ⟨.fail e, s, [.cacheGet (video_id ++ "_comments")]⟩ := by
  cases e with
  | redisNil => exact absurd rfl hne
  | sqlErrNoRows => simp only [GetAllForVideoId, h]
  | other msg => simp only [GetAllForVideoId, h]

theorem Write_inserted (env : Env) (f : Faults) (now : Time) (s : Store)
    (toWrite : WriteRequest) (v : Bytes) (hexec : f.exec = none)
    (hm : env.marshalComment (newComment env now toWrite) = .ok v) :
    Write env f now s toWrite =
      ⟨.ok (some (newComment env now toWrite)),
        cacheSet f { s with rows := s.rows ++ [newRow env now toWrite] }
          ("comment_" ++ commentId env now toWrite) v,
        [.pgExec (newRow env now toWrite),
          .cacheSet ("comment_" ++ commentId env now toWrite) v]⟩ := by
  simp [Write, pgExec, hexec, hm]

theorem Write_cache_frame (env : Env) (f : Faults) (now : Time) (s : Store)
    (toWrite : WriteRequest) (k : String) (h : k ≠ "comment_" ++ commentId env now toWrite) :
    (Write env f now s toWrite).store.cache k = s.cache k := by
  unfold Write pgExec
  cases f.exec with
  | some e => rfl
  | none =>
    cases hm : env.marshalComment (newComment env now toWrite) with
    | error e => simp [hm]
    | ok v => simp [hm, cacheSet_cache_of_ne _ _ _ _ _ h]

theorem GetAllForVideoId_miss (env : Env) (f : Faults) (s : Store) (video_id : String)
    (h : cacheGet f s (video_id ++ "_comments") = .error .redisNil) :
    GetAllForVideoId env f s video_id =
      match pgQuery f s video_id with
      | .error e => ⟨.fail e, s, [.cacheGet (video_id ++ "_comments"), .pgQuery video_id]⟩
      | .ok rows =>
        match scanRows f video_id rows.breaks rows.pending [] with
        | .error e => ⟨.fail e, s, [.cacheGet (video_id ++ "_comments"), .pgQuery video_id]⟩
        | .ok comments =>
          match env.marshalResponse { Comments := comments } with
          | .error e =>
            ⟨.fail e, s, [.cacheGet (video_id ++ "_comments"), .pgQuery video_id]⟩
          | .ok v =>
            ⟨.ok (some { Comments := comments }), cacheSet f s (video_id ++ "_comments") v,
              [.cacheGet (video_id ++ "_comments"), .pgQuery video_id,
                .cacheSet (video_id ++ "_comments") v]⟩ := by
  simp only [GetAllForVideoId, h]

theorem GetSingle_miss (env : Env) (f : Faults) (s : Store) (id : String)
    (h : cacheGet f s ("comment_" ++ id) = .error .redisNil) :
    GetSingle env f s id =
      match pgQueryRowScan f s id with
      | .error e => ⟨.fail e, s, [.cacheGet ("comment_" ++ id), .pgQueryRow id]⟩
      | .ok r =>
        match env.marshalComment (singleComment id r) with
        | .error e => ⟨.fail e, s, [.cacheGet ("comment_" ++ id), .pgQueryRow id]⟩
        | .ok v =>
          ⟨.ok (some (singleComment id r)),
            cacheSet f s ("comment_" ++ id) v,
            [.cacheGet ("comment_" ++ id), .pgQueryRow id, .cacheSet ("comment_" ++ id) v]⟩ := by
  simp only [GetSingle, h]

/-- The relational failures both reads do return on a cache miss: a failing select and a
failing row scan in `GetAllForVideoId`; a failing single-row query or scan in `GetSingle`,
among them a connection that breaks before the first row (here `rows.Err()` is read) and
`sql.ErrNoRows`. In each case there is no result and table and cache are as before. -/
theorem relational_errors_returned (env : Env) (f : Faults) (s : Store) :
    (∀ video_id e, cacheGet f s (video_id ++ "_comments") = .error .redisNil →
      pgQuery f s video_id = .error e →
      (GetAllForVideoId env f s video_id).out = .fail e ∧
      (GetAllForVideoId env f s video_id).store = s) ∧
    (∀ video_id rows r e, cacheGet f s (video_id ++ "_comments") = .error .redisNil →
      pgQuery f s video_id = .ok { pending := rows, breaks := none } →
      r ∈ rows → f.scan r = some e →
      ∃ r' e', r' ∈ rows ∧ f.scan r' = some e' ∧
        (GetAllForVideoId env f s video_id).out = .fail e' ∧
        (GetAllForVideoId env f s video_id).store = s) ∧
    (∀ id e, cacheGet f s ("comment_" ++ id) = .error .redisNil →
      pgQueryRowScan f s id = .error e →
      (GetSingle env f s id).out = .fail e ∧ (GetSingle env f s id).store = s) ∧
    (∀ id e, cacheGet f s ("comment_" ++ id) = .error .redisNil → f.query = none →
      f.next = some (0, e) →
      (GetSingle env f s id).out = .fail e ∧ (GetSingle env f s id).store = s) ∧
    (∀ id, cacheGet f s ("comment_" ++ id) = .error .redisNil → f.query = none →
      f.next = none → (∀ r ∈ s.rows, r.id ≠ id) →
      (GetSingle env f s id).out = .fail .sqlErrNoRows ∧ (GetSingle env f s id).store = s) := by
  refine ⟨?_, ?_, ?_, ?_, ?_⟩
  · intro video_id e hmiss hq
    rw [GetAllForVideoId_miss env f s video_id hmiss]
    simp only [hq, and_self]
  · intro video_id rows r e hmiss hq hr he
    obtain ⟨r', e', h1, h2, h3⟩ := scanRows_error f video_id rows [] r e hr he
    refine ⟨r', e', h1, h2, ?_⟩
    rw [GetAllForVideoId_miss env f s video_id hmiss]
    simp only [hq, h3, and_self]
  · intro id e hmiss hq
    rw [GetSingle_miss env f s id hmiss]
    simp only [hq, and_self]
  · intro id e hmiss hquery hnext
    have hq : pgQueryRowScan f s id = .error e := by
      simp only [pgQueryRowScan, hquery, hnext]
    rw [GetSingle_miss env f s id hmiss]
    simp only [hq, and_self]
  · intro id hmiss hquery hnext hnone
    have hfilter : (s.rows.filter fun r => r.id = id) = [] := by
      rw [List.filter_eq_nil_iff]
      intro r hr
      simpa using hnone r hr
    have hq : pgQueryRowScan f s id = .error .sqlErrNoRows := by
      simp only [pgQueryRowScan, hquery, hnext, hfilter]
    rw [GetSingle_miss env f s id hmiss]
    simp only [hq, and_self]

/-! ## The claims -/

/-- C1 (defect in the code): after a `Write` whose insert, serialization and cache set went
through, `GetSingle` on the returned identifier does find the entry `comment_<id>` that
`Write` stored and issues no relational query, yet it passes the payload to the text
decoder together with a nil `*pb.Comment`; so it never returns a comment, let alone the
one `Write` returned: it panics, fails, or returns the nil pointer. -/
theorem C1_getSingle_after_write_returns_no_comment
    (env : Env) (f g : Faults) (now : Time) (s : Store) (toWrite : WriteRequest) (v : Bytes)
    (hexec : f.exec = none) (hm : env.marshalComment (newComment env now toWrite) = .ok v)
    (hset : f.cacheSet = none) (hget : g.cacheGet = none) :
    (Write env f now s toWrite).out = .ok (some (newComment env now toWrite)) ∧
    (Write env f now s toWrite).store.cache ("comment_" ++ commentId env now toWrite)
      = some v ∧
    (GetSingle env g (Write env f now s toWrite).store (commentId env now toWrite)).trace
      = [.cacheGet ("comment_" ++ commentId env now toWrite)] ∧
    (GetSingle env g (Write env f now s toWrite).store (commentId env now toWrite)).out
      = nilOutcome Comment (env.unmarshalTextNilComment v) ∧
    (∀ c, (GetSingle env g (Write env f now s toWrite).store (commentId env now toWrite)).out
      ≠ .ok (some c)) := by
  have hw := Write_inserted env f now s toWrite v hexec hm
  have hc : (Write env f now s toWrite).store.cache ("comment_" ++ commentId env now toWrite)
      = some v := by
    rw [hw]
    exact cacheSet_cache_healthy _ _ _ _ hset
  have hg : cacheGet g (Write env f now s toWrite).store
      ("comment_" ++ commentId env now toWrite) = .ok v := by
    simp [cacheGet, hget, hc]
  have hs := GetSingle_hit env g _ _ v hg
  refine ⟨by rw [hw], hc, by rw [hs], by rw [hs], ?_⟩
  intro c
  rw [hs]
  exact nilOutcome_ne_some _ _ c

/-- C1 at the scenario of the specification: `Write` of `helloRequest` into an empty
store, then `GetSingle` on the identifier. -/
theorem C1_getSingle_after_write_witness :
    noFaults.exec = none ∧
    (Write fixtureEnv noFaults 3 emptyStore helloRequest).out
      = .ok (some (newComment fixtureEnv 3 helloRequest)) ∧
    (GetSingle fixtureEnv noFaults (Write fixtureEnv noFaults 3 emptyStore helloRequest).store
      (commentId fixtureEnv 3 helloRequest)).out = .panic :=
  ⟨rfl,
    (C1_getSingle_after_write_returns_no_comment fixtureEnv noFaults noFaults 3 emptyStore
      helloRequest (fixtureMarshal (newComment fixtureEnv 3 helloRequest)) rfl rfl rfl rfl).1,
    (C1_getSingle_after_write_returns_no_comment fixtureEnv noFaults noFaults 3 emptyStore
      helloRequest (fixtureMarshal (newComment fixtureEnv 3 helloRequest))
      rfl rfl rfl rfl).2.2.2.1⟩

/-- C2 (defect in the code): for a video without rows and without a cached list, the
first `GetAllForVideoId` returns the empty list and no error and stores its serialization
under `<video_id>_comments`; the second call finds that entry and passes it to the decoder
together with a nil `*pb.Response`, so it returns no list at all: it panics, fails, or
returns the nil pointer. -/
theorem C2_warm_call_returns_no_list
    (env : Env) (f g : Faults) (s : Store) (video_id : String) (v : Bytes)
    (hrows : (s.rows.filter fun r => r.video_id = video_id) = [])
    (hcold : s.cache (video_id ++ "_comments") = none)
    (hget : f.cacheGet = none) (hquery : f.query = none) (hset : f.cacheSet = none)
    (hm : env.marshalResponse { Comments := [] } = .ok v) (hget2 : g.cacheGet = none) :
    (GetAllForVideoId env f s video_id).out = .ok (some { Comments := [] }) ∧
    (GetAllForVideoId env f s video_id).store.cache (video_id ++ "_comments") = some v ∧
    (GetAllForVideoId env g (GetAllForVideoId env f s video_id).store video_id).out
      = nilOutcome Response (env.unmarshalNilResponse v) ∧
    (∀ r, (GetAllForVideoId env g (GetAllForVideoId env f s video_id).store video_id).out
      ≠ .ok (some r)) := by
  have hmiss : cacheGet f s (video_id ++ "_comments") = .error .redisNil := by
    simp [cacheGet, hget, hcold]
  have hq : pgQuery f s video_id = .ok { pending := [], breaks := f.next } := by
    simp only [pgQuery, hquery, hrows]
  have h1 : GetAllForVideoId env f s video_id =
      ⟨.ok (some { Comments := [] }), cacheSet f s (video_id ++ "_comments") v,
        [.cacheGet (video_id ++ "_comments"), .pgQuery video_id,
          .cacheSet (video_id ++ "_comments") v]⟩ := by
    rw [GetAllForVideoId_miss env f s video_id hmiss]
    simp only [hq, scanRows_nil, hm]
  have hc : (GetAllForVideoId env f s video_id).store.cache (video_id ++ "_comments")
      = some v := by
    rw [h1]
    exact cacheSet_cache_healthy _ _ _ _ hset
  have hg : cacheGet g (GetAllForVideoId env f s video_id).store (video_id ++ "_comments")
      = .ok v := by
    simp [cacheGet, hget2, hc]
  have h2 := GetAllForVideoId_hit env g _ _ v hg
  refine ⟨by rw [h1], hc, by rw [h2], ?_⟩
  intro r
  rw [h2]
  exact nilOutcome_ne_some _ _ r

/-- C2 at a concrete input: video `v1` on an empty store, called twice. -/
theorem C2_warm_call_witness :
    (emptyStore.rows.filter fun r => r.video_id = "v1") = [] ∧
    (GetAllForVideoId fixtureEnv noFaults emptyStore "v1").out
      = .ok (some { Comments := [] }) ∧
    (GetAllForVideoId fixtureEnv noFaults
      (GetAllForVideoId fixtureEnv noFaults emptyStore "v1").store "v1").out = .panic :=
  ⟨rfl,
    (C2_warm_call_returns_no_list fixtureEnv noFaults noFaults emptyStore "v1" []
      rfl rfl rfl rfl rfl rfl rfl).1,
    (C2_warm_call_returns_no_list fixtureEnv noFaults noFaults emptyStore "v1" []
      rfl rfl rfl rfl rfl rfl rfl).2.2.1⟩

/-- C3: when the insert succeeds, `Write` returns no error and the comment with id = hex
of the digest of `text(ts) ++ video_id ++ content`, the request's video id, user and
content, date posted = `text(ts)` and zero likes and dislikes, whatever the cache answers
to the set of `comment_<id>`. The library is taken to serialize the new comment, as
`proto.Marshal` does for the non-nil message `Write` has just built. -/
theorem C3_write_returns_the_new_comment
    (env : Env) (f : Faults) (now : Time) (s : Store) (toWrite : WriteRequest) (v : Bytes)
    (hexec : f.exec = none)
    (hm : env.marshalComment (newComment env now toWrite) = .ok v) :
    ∀ setStatus : Option Err,
      (Write env (withCacheSet f setStatus) now s toWrite).out =
        .ok (some
          { Id := hexEncodeToString
              (env.md5Sum (env.timeString now ++ toWrite.VideoId ++ toWrite.Content)).bytes,
            VideoId := toWrite.VideoId, User := toWrite.User, Content := toWrite.Content,
            DatePosted := env.timeString now, Likes := 0, Dislikes := 0 }) := by
  intro setStatus
  have hw := Write_inserted env (withCacheSet f setStatus) now s toWrite v hexec hm
  rw [hw]
  rfl

/-- C3 at the scenario of the specification, once with a healthy cache and once with a
cache that refuses the set. -/
theorem C3_write_witness :
    noFaults.exec = none ∧
    (Write fixtureEnv (withCacheSet noFaults none) 3 emptyStore helloRequest).out =
      .ok (some
        { Id := "0b0b0b0b0b0b0b0b0b0b0b0b0b0b0b0b", VideoId := "v1", User := "u1",
          Content := "hello", DatePosted := "T111", Likes := 0, Dislikes := 0 }) ∧
    (Write fixtureEnv setRefused 3 emptyStore helloRequest).out =
      .ok (some
        { Id := "0b0b0b0b0b0b0b0b0b0b0b0b0b0b0b0b", VideoId := "v1", User := "u1",
          Content := "hello", DatePosted := "T111", Likes := 0, Dislikes := 0 }) :=
  ⟨rfl,
    C3_write_returns_the_new_comment fixtureEnv noFaults 3 emptyStore helloRequest
      (fixtureMarshal (newComment fixtureEnv 3 helloRequest)) rfl rfl none,
    C3_write_returns_the_new_comment fixtureEnv noFaults 3 emptyStore helloRequest
      (fixtureMarshal (newComment fixtureEnv 3 helloRequest)) rfl rfl
      (some (.other "OOM"))⟩

/-- C4: when the insert fails, `Write` returns that error and no comment, and leaves the
table and the cache as they were; the only backend call it made is the insert. -/
theorem C4_failed_insert_changes_nothing
    (env : Env) (f : Faults) (now : Time) (s : Store) (toWrite : WriteRequest) (e : Err)
    (hexec : f.exec = some e) :
    (Write env f now s toWrite).out = .fail e ∧
    (Write env f now s toWrite).store = s ∧
    (Write env f now s toWrite).trace = [.pgExec (newRow env now toWrite)] ∧
    (∀ k v, Event.cacheSet k v ∉ (Write env f now s toWrite).trace) := by
  have hw : Write env f now s toWrite = ⟨.fail e, s, [.pgExec (newRow env now toWrite)]⟩ := by
    simp [Write, pgExec, hexec]
  rw [hw]
  simp

/-- C4 at a concrete input: the database refuses the insert of `helloRequest`. -/
theorem C4_failed_insert_witness :
    insertRefused.exec
      = some (.other "duplicate key") ∧
    (Write fixtureEnv insertRefused 3 emptyStore
      helloRequest).out = .fail (.other "duplicate key") ∧
    (Write fixtureEnv insertRefused 3 emptyStore
      helloRequest).store = emptyStore :=
  ⟨rfl,
    (C4_failed_insert_changes_nothing fixtureEnv
      insertRefused 3 emptyStore helloRequest
      (.other "duplicate key") rfl).1,
    (C4_failed_insert_changes_nothing fixtureEnv
      insertRefused 3 emptyStore helloRequest
      (.other "duplicate key") rfl).2.1⟩

/-- C5: `Write` changes the cache at no key other than `comment_<new id>`; in particular
the payload under every list key `<video_id>_comments` is the same after `Write` as
before, a lookup of a list key answers the same, and a `GetAllForVideoId` that finds a
list cached before the write ends exactly as it would have ended without the write. -/
theorem C5_write_leaves_list_entries
    (env : Env) (f : Faults) (now : Time) (s : Store) (toWrite : WriteRequest) :
    (∀ k, k ≠ "comment_" ++ commentId env now toWrite →
      (Write env f now s toWrite).store.cache k = s.cache k) ∧
    (∀ video_id, (Write env f now s toWrite).store.cache (video_id ++ "_comments")
      = s.cache (video_id ++ "_comments")) ∧
    (∀ g video_id, cacheGet g (Write env f now s toWrite).store (video_id ++ "_comments")
      = cacheGet g s (video_id ++ "_comments")) ∧
    (∀ g video_id val, cacheGet g s (video_id ++ "_comments") = .ok val →
      (GetAllForVideoId env g (Write env f now s toWrite).store video_id).out
        = (GetAllForVideoId env g s video_id).out) := by
  have hlist : ∀ video_id, (Write env f now s toWrite).store.cache (video_id ++ "_comments")
      = s.cache (video_id ++ "_comments") := fun video_id =>
    Write_cache_frame env f now s toWrite _
      (fun h => commentKey_ne_listKey env now toWrite video_id h.symm)
  refine ⟨fun k hk => Write_cache_frame env f now s toWrite k hk, hlist,
    fun g video_id => cacheGet_congr g _ _ _ (hlist video_id), ?_⟩
  intro g video_id val hval
  have hval2 : cacheGet g (Write env f now s toWrite).store (video_id ++ "_comments")
      = .ok val := by
    rw [cacheGet_congr g _ _ _ (hlist video_id)]
    exact hval
  rw [GetAllForVideoId_hit env g _ video_id val hval2, GetAllForVideoId_hit env g s video_id val hval]

/-- C5 at a concrete input: an empty list is cached for video `v1`, then a comment for
`v1` is written; the cached list is the same afterwards. -/
theorem C5_write_witness :
    (Write fixtureEnv noFaults 3 staleStore helloRequest).out
      = .ok (some (newComment fixtureEnv 3 helloRequest)) ∧
    (Write fixtureEnv noFaults 3 staleStore helloRequest).store.cache "v1_comments"
      = some [] :=
  ⟨rfl, (C5_write_leaves_list_entries fixtureEnv noFaults 3 staleStore helloRequest).2.1 "v1"⟩

/-- C6: when the cache answers the lookup with an error other than `redis.Nil`, both
`GetAllForVideoId` and `GetSingle` return that error and no result, leave table and cache
as they were, and the lookup is the only backend call they make: no relational query and
no cache write. -/
theorem C6_cache_error_is_returned
    (env : Env) (f : Faults) (s : Store) (video_id id : String) (e : Err)
    (he : f.cacheGet = some e) (hne : e ≠ .redisNil) :
    cacheGet f s (video_id ++ "_comments") = .error e ∧
    (GetAllForVideoId env f s video_id).out = .fail e ∧
    (GetAllForVideoId env f s video_id).store = s ∧
    (GetAllForVideoId env f s video_id).trace = [.cacheGet (video_id ++ "_comments")] ∧
    cacheGet f s ("comment_" ++ id) = .error e ∧
    (GetSingle env f s id).out = .fail e ∧
    (GetSingle env f s id).store = s ∧
    (GetSingle env f s id).trace = [.cacheGet ("comment_" ++ id)] := by
  have hv : cacheGet f s (video_id ++ "_comments") = .error e := by simp [cacheGet, he]
  have hi : cacheGet f s ("comment_" ++ id) = .error e := by simp [cacheGet, he]
  rw [GetAllForVideoId_cacheError env f s video_id e hv hne,
    GetSingle_cacheError env f s id e hi hne]
  exact ⟨hv, rfl, rfl, rfl, hi, rfl, rfl, rfl⟩

/-- C6 at a concrete input: the cache is unreachable. -/
theorem C6_cache_error_witness :
    (Err.other "connection refused" ≠ Err.redisNil) ∧
    (GetAllForVideoId fixtureEnv cacheDown
      emptyStore "v1").out = .fail (.other "connection refused") ∧
    (GetSingle fixtureEnv cacheDown
      emptyStore "c1").trace = [.cacheGet "comment_c1"] :=
  ⟨by decide,
    (C6_cache_error_is_returned fixtureEnv
      cacheDown emptyStore "v1" "c1"
      (.other "connection refused") rfl (by decide)).2.1,
    (C6_cache_error_is_returned fixtureEnv
      cacheDown emptyStore "v1" "c1"
      (.other "connection refused") rfl (by decide)).2.2.2.2.2.2.2⟩

/-- C7 (defect in the code): on a cache miss, when the select was sent and the connection
breaks after `n` of its rows, fewer than there are, `GetAllForVideoId` does not return
that error: the loop `for rows.Next()` just ends, `rows.Err()` is never read, and the
operation returns the comments of the first `n` rows (none at all for `n = 0`) with no
error and stores that shortened list under `<video_id>_comments`. -/
theorem C7_broken_iteration_is_not_returned
    (env : Env) (f : Faults) (s : Store) (video_id : String) (rows : List Row) (n : Nat)
    (e : Err) (v : Bytes)
    (hmiss : cacheGet f s (video_id ++ "_comments") = .error .redisNil)
    (hq : pgQuery f s video_id = .ok { pending := rows, breaks := some (n, e) })
    (hn : n < rows.length)
    (hscan : ∀ r ∈ rows.take n, f.scan r = none)
    (hm : env.marshalResponse { Comments := (rows.take n).map (rowComment video_id) } = .ok v)
    (hset : f.cacheSet = none) :
    (GetAllForVideoId env f s video_id).out
      = .ok (some { Comments := (rows.take n).map (rowComment video_id) }) ∧
    (GetAllForVideoId env f s video_id).out ≠ .fail e ∧
    ((rows.take n).map (rowComment video_id)).length < rows.length ∧
    (GetAllForVideoId env f s video_id).store.cache (video_id ++ "_comments") = some v := by
  have hsc := scanRows_broken f video_id n e rows [] hscan
  rw [List.nil_append] at hsc
  have hrun : GetAllForVideoId env f s video_id =
      ⟨.ok (some { Comments := (rows.take n).map (rowComment video_id) }),
        cacheSet f s (video_id ++ "_comments") v,
        [.cacheGet (video_id ++ "_comments"), .pgQuery video_id,
          .cacheSet (video_id ++ "_comments") v]⟩ := by
    rw [GetAllForVideoId_miss env f s video_id hmiss]
    simp only [hq, hsc, hm]
  rw [hrun]
  refine ⟨rfl, by simp, ?_, cacheSet_cache_healthy f s _ v hset⟩
  rw [List.length_map, List.length_take]
  omega

/-- C7 at a concrete input: video `v1` has a row, the cache has no list for it, and the
connection breaks before the first row is read; the operation returns the empty list with
no error and caches it. -/
theorem C7_broken_iteration_witness :
    cacheGet cursorBroken sampleStore ("v1" ++ "_comments") = .error .redisNil ∧
    (sampleStore.rows.filter fun r => r.video_id = "v1") = [sampleRow] ∧
    (GetAllForVideoId fixtureEnv cursorBroken sampleStore "v1").out
      = .ok (some { Comments := [] }) ∧
    (GetAllForVideoId fixtureEnv cursorBroken sampleStore "v1").store.cache
      ("v1" ++ "_comments") = some [] :=
  ⟨rfl, rfl,
    (C7_broken_iteration_is_not_returned fixtureEnv cursorBroken sampleStore "v1" [sampleRow]
      0 (.other "connection reset") [] rfl rfl (by decide) (fun _ h => nomatch h) rfl rfl).1,
    (C7_broken_iteration_is_not_returned fixtureEnv cursorBroken sampleStore "v1" [sampleRow]
      0 (.other "connection reset") [] rfl rfl (by decide) (fun _ h => nomatch h) rfl
      rfl).2.2.2⟩

/-- C8 as stated fails: at one timestamp, the requests `("a", "bc")` and `("ab", "c")`
differ in video id and in content, yet `Write` hashes the same string for both and so
computes the same identifier. -/
theorem C8_counterexample_concatenation_is_ambiguous :
    ("a" : String) ≠ "ab" ∧ ("bc" : String) ≠ "c" ∧
    hashInput fixtureEnv 3 { VideoId := "a", User := "u1", Content := "bc" }
      = hashInput fixtureEnv 3 { VideoId := "ab", User := "u1", Content := "c" } ∧
    commentId fixtureEnv 3 { VideoId := "a", User := "u1", Content := "bc" }
      = commentId fixtureEnv 3 { VideoId := "ab", User := "u1", Content := "c" } := by
  decide

/-- C8 (amended): the identifier is a function of timestamp text, video id and content;
at one timestamp text two requests are hashed over the same string exactly when their
`video_id ++ content` agree, so requests that differ in the content only, or in the video
id only, are hashed over different strings; and two identifiers agree exactly when the
two digests agree. -/
theorem C8_identifier_determinism_and_separation
    (env : Env) (t u : Time) (a b : WriteRequest)
    (ht : env.timeString t = env.timeString u) :
    (a.VideoId = b.VideoId → a.Content = b.Content →
      commentId env t a = commentId env u b) ∧
    (hashInput env t a = hashInput env u b ↔
      a.VideoId ++ a.Content = b.VideoId ++ b.Content) ∧
    (a.VideoId = b.VideoId → a.Content ≠ b.Content →
      hashInput env t a ≠ hashInput env u b) ∧
    (a.Content = b.Content → a.VideoId ≠ b.VideoId →
      hashInput env t a ≠ hashInput env u b) ∧
    (commentId env t a = commentId env u b ↔
      (env.md5Sum (hashInput env t a)).bytes = (env.md5Sum (hashInput env u b)).bytes) := by
  have hiff : hashInput env t a = hashInput env u b ↔
      a.VideoId ++ a.Content = b.VideoId ++ b.Content := by
    simp only [hashInput, String.append_assoc, ht]
    exact ⟨string_append_left_cancel _ _ _, fun h => by rw [h]⟩
  refine ⟨?_, hiff, ?_, ?_, ?_⟩
  · intro hv hc
    simp only [commentId, hashInput, hv, hc, ht]
  · intro hv hc h
    rw [hiff, hv] at h
    exact hc (string_append_left_cancel _ _ _ h)
  · intro hc hv h
    rw [hiff, hc] at h
    exact hv (string_append_right_cancel _ _ _ h)
  · exact ⟨hexEncode_inj _ _, fun h => by simp only [commentId, h]⟩

/-- C8 at concrete requests that differ in the content only. -/
theorem C8_identifier_witness :
    fixtureEnv.timeString 3 = fixtureEnv.timeString 3 ∧
    hashInput fixtureEnv 3 helloRequest
      ≠ hashInput fixtureEnv 3 { VideoId := "v1", User := "u1", Content := "bye" } :=
  ⟨rfl, (C8_identifier_determinism_and_separation fixtureEnv 3 3 helloRequest
    { VideoId := "v1", User := "u1", Content := "bye" } rfl).2.2.1 rfl (by decide)⟩

/-- C9 as stated fails: when the cache refuses the set, the miss path still returns the
list of the video, and no entry `v1_comments` exists afterwards. -/
theorem C9_counterexample_refused_set :
    cacheGet setRefused sampleStore "v1_comments"
      = .error .redisNil ∧
    (GetAllForVideoId fixtureEnv setRefused
      sampleStore "v1").out = .ok (some { Comments := [rowComment "v1" sampleRow] }) ∧
    (GetAllForVideoId fixtureEnv setRefused
      sampleStore "v1").store.cache "v1_comments" = none :=
  ⟨rfl, rfl, rfl⟩

/-- C9 (amended): on a cache miss where the select with the reading of all its rows,
every row scan and the serialization of the list succeed, `GetAllForVideoId` returns one
comment per selected row, in the order of the select, carrying the given video id and the row's id, user, date, content,
likes and dislikes; if the cache accepts the set, the entry `<video_id>_comments` then
holds the serialization of exactly the returned list, and if it refuses, the store is as
before; in both cases no other cache key and no row is changed. -/
theorem C9_miss_returns_rows_and_fills_entry
    (env : Env) (f : Faults) (s : Store) (video_id : String) (rows : List Row) (v : Bytes)
    (hmiss : cacheGet f s (video_id ++ "_comments") = .error .redisNil)
    (hq : pgQuery f s video_id = .ok { pending := rows, breaks := none })
    (hscan : ∀ r ∈ rows, f.scan r = none)
    (hm : env.marshalResponse { Comments := rows.map (rowComment video_id) } = .ok v) :
    rows = (s.rows.filter fun r => r.video_id = video_id) ∧
    (GetAllForVideoId env f s video_id).out
      = .ok (some { Comments := rows.map (rowComment video_id) }) ∧
    (∀ r, (rowComment video_id r).Id = r.id ∧ (rowComment video_id r).VideoId = video_id ∧
      (rowComment video_id r).User = r.user_id ∧
      (rowComment video_id r).DatePosted = r.date_created ∧
      (rowComment video_id r).Content = r.content ∧ (rowComment video_id r).Likes = r.likes ∧
      (rowComment video_id r).Dislikes = r.dislikes) ∧
    (f.cacheSet = none →
      (GetAllForVideoId env f s video_id).store.cache (video_id ++ "_comments") = some v) ∧
    (∀ e, f.cacheSet = some e → (GetAllForVideoId env f s video_id).store = s) ∧
    (∀ k, k ≠ video_id ++ "_comments" →
      (GetAllForVideoId env f s video_id).store.cache k = s.cache k) ∧
    (GetAllForVideoId env f s video_id).store.rows = s.rows := by
  have hrows : rows = (s.rows.filter fun r => r.video_id = video_id) := by
    unfold pgQuery at hq
    cases hf : f.query with
    | some e => rw [hf] at hq; cases hq
    | none =>
      rw [hf] at hq
      exact (congrArg Rows.pending (Except.ok.inj hq)).symm
  have hsc := scanRows_ok f video_id rows [] hscan
  rw [List.nil_append] at hsc
  have hrun : GetAllForVideoId env f s video_id =
      ⟨.ok (some { Comments := rows.map (rowComment video_id) }),
        cacheSet f s (video_id ++ "_comments") v,
        [.cacheGet (video_id ++ "_comments"), .pgQuery video_id,
          .cacheSet (video_id ++ "_comments") v]⟩ := by
    rw [GetAllForVideoId_miss env f s video_id hmiss]
    simp only [hq, hsc, hm]
  rw [hrun]
  exact ⟨hrows, rfl, fun r => ⟨rfl, rfl, rfl, rfl, rfl, rfl, rfl⟩,
    fun h => cacheSet_cache_healthy f s _ v h,
    fun e h => cacheSet_failed f s _ v e h,
    fun k hk => cacheSet_cache_of_ne f s _ k v hk,
    cacheSet_rows f s _ v⟩

/-- C9 at a concrete input: video `v1` on `sampleStore`, both backends healthy. -/
theorem C9_miss_witness :
    cacheGet noFaults sampleStore ("v1" ++ "_comments") = .error .redisNil ∧
    (GetAllForVideoId fixtureEnv noFaults sampleStore "v1").out
      = .ok (some { Comments := [sampleRow].map (rowComment "v1") }) ∧
    (GetAllForVideoId fixtureEnv noFaults sampleStore "v1").store.cache ("v1" ++ "_comments")
      = some (fixtureMarshal (rowComment "v1" sampleRow)) :=
  ⟨rfl,
    (C9_miss_returns_rows_and_fills_entry fixtureEnv noFaults sampleStore "v1" [sampleRow]
      (fixtureMarshal (rowComment "v1" sampleRow)) rfl rfl (fun _ _ => rfl) rfl).2.1,
    (C9_miss_returns_rows_and_fills_entry fixtureEnv noFaults sampleStore "v1" [sampleRow]
      (fixtureMarshal (rowComment "v1" sampleRow)) rfl rfl (fun _ _ => rfl) rfl).2.2.2.1 rfl⟩

/-- C10: the identifier `Write` computes has exactly 32 characters, all of them among
`0123456789abcdef` (the constant `hextable`); hence the key `comment_<id>` differs from every list key
`<video_id>_comments`, and `Write` leaves the entry of every list key as it was. -/
theorem C10_comment_key_is_never_a_list_key
    (env : Env) (f : Faults) (now : Time) (s : Store) (toWrite : WriteRequest)
    (video_id : String) :
    (commentId env now toWrite).length = 32 ∧
    (∀ c ∈ (commentId env now toWrite).data, c ∈ hextable.data) ∧
    "comment_" ++ commentId env now toWrite ≠ video_id ++ "_comments" ∧
    (Write env f now s toWrite).store.cache (video_id ++ "_comments")
      = s.cache (video_id ++ "_comments") := by
  refine ⟨commentId_data_length env now toWrite, ?_,
    commentKey_ne_listKey env now toWrite video_id,
    Write_cache_frame env f now s toWrite _
      (fun h => commentKey_ne_listKey env now toWrite video_id h.symm)⟩
  intro c hc
  exact hexEncode_mem _ c hc

end CommentsSvc
